import Mathlib

/-!
Shallow embedding of the Movie-Analytics capstone pipeline
(Scripts/data_enrichment_v2.py, Scripts/processors/data_cleaning.py,
Scripts/utils/validators.py) together with theorems settling the frozen
claims about it.

Python values are modelled by the inductive type `Val`; floats are modelled
as rationals (none of the properties checked here hinges on binary
floating-point rounding, and NaN is a separate constructor since pandas
treats it as the missing-value marker).  Functions that the source lets
raise an uncaught exception are modelled in `Except Unit`; functions whose
body is wrapped in a catch-all `try/except` are total.
-/

/-- Exact decimal representation of a Python float: the rational number
`num / 10 ^ scale`.  Python floats are binary, but no property checked
here hinges on binary rounding; this representation keeps every numeric
comparison kernel-computable. -/
structure Flt where
  num : Int
  scale : Nat
deriving DecidableEq

/-- Value of a `Flt` as a rational number. -/
def Flt.toRat (f : Flt) : Rat := (f.num : Rat) / (10 : Rat) ^ f.scale

/-- Equality of two decimal floats (cross-multiplied, kernel-computable). -/
def fltEq (a b : Flt) : Bool := a.num * (10 : Int) ^ b.scale = b.num * (10 : Int) ^ a.scale

/-- Strict order on decimal floats. -/
def fltLt (a b : Flt) : Bool := a.num * (10 : Int) ^ b.scale < b.num * (10 : Int) ^ a.scale

/-- Non-strict order on decimal floats. -/
def fltLe (a b : Flt) : Bool := a.num * (10 : Int) ^ b.scale ≤ b.num * (10 : Int) ^ a.scale

/-- Decimal float of an integer. -/
def fltOfInt (n : Int) : Flt := ⟨n, 0⟩

/-- Python `int()` truncation toward zero of a decimal float. -/
def fltTrunc (f : Flt) : Int := Int.tdiv f.num ((10 : Int) ^ f.scale)

/-- Model of a Python runtime value as it crosses the pipeline functions. -/
inductive Val where
  | none
  | nan
  | str (s : String)
  | int (n : Int)
  | float (f : Flt)
  | list (xs : List Val)
  | dict (kvs : List (String × Val))

/-- Python truthiness, `bool(v)`. -/
def pyTruthy : Val → Bool
  | .none => false
  | .nan => true
  | .str s => s ≠ ""
  | .int n => n ≠ 0
  | .float f => f.num ≠ 0
  | .list xs => ¬ xs.isEmpty
  | .dict kvs => ¬ kvs.isEmpty

/-- Result of `pd.isna(v)` for a scalar argument. -/
def pdIsnaScalar : Val → Bool
  | .none => true
  | .nan => true
  | _ => false

/-- Evaluation of `pd.isna(v)` in a boolean context (`if pd.isna(v)`): for a
list argument pandas returns a boolean array, whose conversion to `bool`
raises `ValueError` unless the array has exactly one element. -/
def pdIsnaBool : Val → Except Unit Bool
  | .list [x] => .ok (pdIsnaScalar x)
  | .list _ => .error ()
  | v => .ok (pdIsnaScalar v)

/-- Whitespace characters recognised by `str.strip()` and the regex `\s`
(ASCII subset; the exotic Unicode whitespace characters play no role in any
claim checked here). -/
def isPySpace (c : Char) : Bool :=
  c = ' ' || c = '\t' || c = '\n' || c = '\r' || c = '\x0b' || c = '\x0c'

/-- Strip leading and trailing whitespace from a character list. -/
def stripChars (cs : List Char) : List Char :=
  ((cs.dropWhile isPySpace).reverse.dropWhile isPySpace).reverse

/-- Python `s.strip()`. -/
def pyStrip (s : String) : String := String.mk (stripChars s.data)

/-- ASCII lowercasing character map (Python `str.lower`; the sentinel
comparisons in the source involve ASCII only). -/
def lowerChar (c : Char) : Char :=
  if 'A' ≤ c ∧ c ≤ 'Z' then Char.ofNat (c.toNat + 32) else c

/-- Python `s.lower()`. -/
def pyLower (s : String) : String := String.mk (s.data.map lowerChar)

/-- Numeric value of a decimal digit list, most significant first. -/
def natOfDigits (ds : List Char) : Nat :=
  ds.foldl (fun a c => a * 10 + (c.toNat - 48)) 0

/-- Parser for the body of Python `float(string)` after whitespace
stripping: optional sign, digits with an optional decimal point, optional
exponent.  The named specials (`inf`, `nan`) are not modelled; no claim
feeds them to a numeric conversion. -/
def parseFloatCore (cs0 : List Char) : Option Flt :=
  let signAndRest : Bool × List Char :=
    match cs0 with
    | '+' :: t => (false, t)
    | '-' :: t => (true, t)
    | t => (false, t)
  let neg := signAndRest.1
  let cs := signAndRest.2
  let intPart := cs.takeWhile Char.isDigit
  let cs1 := cs.dropWhile Char.isDigit
  let fracAndRest : List Char × List Char :=
    match cs1 with
    | '.' :: t => (t.takeWhile Char.isDigit, t.dropWhile Char.isDigit)
    | _ => ([], cs1)
  let fracPart := fracAndRest.1
  let cs2 := fracAndRest.2
  if intPart.isEmpty ∧ fracPart.isEmpty then Option.none
  else
    let mag : Int := natOfDigits (intPart ++ fracPart)
    let num : Int := if neg then -mag else mag
    let sc : Nat := fracPart.length
    match cs2 with
    | [] => some ⟨num, sc⟩
    | e :: t =>
      if e = 'e' ∨ e = 'E' then
        let esignAndRest : Bool × List Char :=
          match t with
          | '+' :: r => (true, r)
          | '-' :: r => (false, r)
          | r => (true, r)
        let eds := esignAndRest.2.takeWhile Char.isDigit
        let rest := esignAndRest.2.dropWhile Char.isDigit
        if eds.isEmpty ∨ ¬ rest.isEmpty then Option.none
        else
          let ex := natOfDigits eds
          some (if esignAndRest.1 then ⟨num * (10 : Int) ^ ex, sc⟩ else ⟨num, sc + ex⟩)
      else Option.none

/-- Python `float(string)` (strips surrounding whitespace first). -/
def pyFloat (s : String) : Option Flt := parseFloatCore (stripChars s.data)

/-- Python `str(v)`.  The float repr is schematic (`<num>e-<scale>`): it
is value-exact (it re-parses, via `pyFloat`, to the same number, as
Python float reprs do), never blank, never a missing-value sentinel, and
no claim below depends on its exact spelling; list/dict reprs are
likewise schematic. -/
def pyStr : Val → String
  | .none => "None"
  | .nan => "nan"
  | .str s => s
  | .int n => toString n
  | .float f => toString f.num ++ "e-" ++ toString f.scale
  | .list _ => "[...]"
  | .dict _ => "\x7b...\x7d"

/-- Python `float(v)` applied directly to a value (no `str` round trip).
A NaN float argument is outside the rational model; every claim below that
reaches this function excludes it by hypothesis. -/
def pyToFloat : Val → Except Unit Flt
  | .int n => .ok (fltOfInt n)
  | .float f => .ok f
  | .str s =>
    match pyFloat s with
    | some f => .ok f
    | Option.none => .error ()
  | _ => .error ()

mutual

/-- Python `==` between two values (numeric cross-type equality, NaN never
equal to anything). -/
def pyEq : Val → Val → Bool
  | .nan, _ => false
  | _, .nan => false
  | .none, .none => true
  | .int a, .int b => a == b
  | .int a, .float b => fltEq (fltOfInt a) b
  | .float a, .int b => fltEq a (fltOfInt b)
  | .float a, .float b => fltEq a b
  | .str a, .str b => a == b
  | .list a, .list b => pyEqList a b
  | .dict a, .dict b => pyEqKvs a b
  | _, _ => false

/-- Elementwise Python `==` on lists. -/
def pyEqList : List Val → List Val → Bool
  | [], [] => true
  | a :: as_, b :: bs => pyEq a b && pyEqList as_ bs
  | _, _ => false

/-- Entrywise Python `==` on dict entry lists (approximating dict equality
by insertion order; no claim distinguishes the two). -/
def pyEqKvs : List (String × Val) → List (String × Val) → Bool
  | [], [] => true
  | a :: as_, b :: bs => (a.1 == b.1 && pyEq a.2 b.2) && pyEqKvs as_ bs
  | _, _ => false

end

/-- Python `v != 0`: true unless `v` compares equal to the integer zero. -/
def pyNeZero (v : Val) : Bool := ¬ pyEq v (.int 0)

/-- Python `v > 0`; comparing a non-numeric value with an integer raises
`TypeError`. -/
def pyGtZero : Val → Except Unit Bool
  | .int n => .ok (0 < n)
  | .float f => .ok (0 < f.num)
  | .nan => .ok false
  | _ => .error ()

/-- Dictionary lookup, first binding wins (Python dicts have unique keys). -/
def bagGet (kvs : List (String × Val)) (k : String) : Option Val :=
  match kvs.find? (fun p => p.1 == k) with
  | some p => some p.2
  | Option.none => Option.none

/-- Fueled worker for Python `str.replace`: left-to-right, non-overlapping,
the replacement text is not rescanned.  Structural recursion on the fuel
keeps the definition kernel-reducible; `replaceSeq` supplies fuel equal to
the string length, which suffices because each step consumes at least one
character of the remaining input. -/
def replaceSeqAux (pat rep : List Char) : Nat → List Char → List Char
  | 0, s => s
  | _ + 1, [] => []
  | fuel + 1, c :: rest =>
    if pat ≠ [] ∧ pat.isPrefixOf (c :: rest) then
      rep ++ replaceSeqAux pat rep fuel ((c :: rest).drop pat.length)
    else
      c :: replaceSeqAux pat rep fuel rest

/-- Python `s.replace(pat, rep)` on character lists. -/
def replaceSeq (pat rep s : List Char) : List Char :=
  replaceSeqAux pat rep s.length s

/-- Occurrence test: does `pat` occur as a contiguous subsequence of `s`? -/
def containsSeq (pat : List Char) : List Char → Bool
  | [] => pat.isEmpty
  | c :: t => pat.isPrefixOf (c :: t) || containsSeq pat t

/-- Fueled worker collapsing every maximal whitespace run to one space,
the effect of `re.sub(r"\s+", " ", text)`. -/
def collapseWsAux : Nat → List Char → List Char
  | 0, s => s
  | _ + 1, [] => []
  | fuel + 1, c :: rest =>
    if isPySpace c then ' ' :: collapseWsAux fuel (rest.dropWhile isPySpace)
    else c :: collapseWsAux fuel rest

/-- Collapse whitespace runs to single spaces. -/
def collapseWs (s : List Char) : List Char := collapseWsAux s.length s

/-- Test for a run of two or more consecutive whitespace characters, the
effect of `re.search(r"\s\x7b2,\x7d", text)`. -/
def hasWsRun : List Char → Bool
  | [] => false
  | [_] => false
  | a :: b :: t => (isPySpace a && isPySpace b) || hasWsRun (b :: t)

/-- Characters removed by `re.sub(r"[\x00-\x08\x0B-\x0C\x0E-\x1F\x7F]", "", text)`. -/
def isCtl (c : Char) : Bool :=
  c.toNat ≤ 8 || c.toNat = 11 || c.toNat = 12 || (14 ≤ c.toNat && c.toNat ≤ 31) || c.toNat = 127

/-- The `_encoding_fixes` mojibake table of `DataCleaner.__init__`, written
with explicit code-point escapes, in dict insertion order with Python
duplicate-key semantics (a repeated key keeps its first position and its
last value): the key `E2 20AC 22` appears twice with values `-` then `--`,
and the one-character key `C3` appears four times with final value
`U+00D1`.  The fourth occurrence of `C3` sits on a source line whose
quoting is broken (that line does not tokenize as Python); the table
models the evident intent of the line, keeping its value for `C3` and its
`C3 2021` entry.  No theorem below depends on the values, only on every
key starting with one of `U+00E2`, `U+00C3`, `U+00C2`. -/
def encodingFixes : List (String × String) :=
  [("\xE2\u20AC\u2122", "\x27"),
   ("\xE2\u20AC\u0153", "\x22"),
   ("\xE2\u20AC", "\x22"),
   ("\xE2\u20AC\x22", "--"),
   ("\xE2\u20AC\xA6", "..."),
   ("\xE2\u20AC\xA2", "\u2022"),
   ("\xE2\u201A\xAC", "\u20AC"),
   ("\xC3\xA1", "\xE1"),
   ("\xC3\xA9", "\xE9"),
   ("\xC3\xAD", "\xED"),
   ("\xC3\xB3", "\xF3"),
   ("\xC3\xBA", "\xFA"),
   ("\xC3 ", "\xE0"),
   ("\xC3\xA8", "\xE8"),
   ("\xC3\xAC", "\xEC"),
   ("\xC3\xB2", "\xF2"),
   ("\xC3\xB9", "\xF9"),
   ("\xC3\xA2", "\xE2"),
   ("\xC3\xAA", "\xEA"),
   ("\xC3\xAE", "\xEE"),
   ("\xC3\xB4", "\xF4"),
   ("\xC3\xBB", "\xFB"),
   ("\xC3\xA3", "\xE3"),
   ("\xC3\xB1", "\xF1"),
   ("\xC3\xA7", "\xE7"),
   ("\xC3\xBC", "\xFC"),
   ("\xC3\xA4", "\xE4"),
   ("\xC3\xB6", "\xF6"),
   ("\xC3", "\xD1"),
   ("\xC3\u2030", "\xC9"),
   ("\xC3\x22", "\xD3"),
   ("\xC3\u0161", "\xDA"),
   ("\xC3\u201E", "\xC4"),
   ("\xC3\u2039", "\xCB"),
   ("\xC3\u2013", "\xD6"),
   ("\xC3\u0153", "\xDC"),
   ("\xC3\u2021", "\xC7"),
   ("\xC2\xA3", "\xA3"),
   ("\xC2\xA9", "\xA9"),
   ("\xC2\xAE", "\xAE"),
   ("\xC2\xB0", "\xB0"),
   ("\xC2\xB1", "\xB1"),
   ("\xC2\xB2", "\xB2"),
   ("\xC2\xB3", "\xB3"),
   ("\xC2\xB5", "\xB5"),
   ("\xC2\xBF", "\xBF"),
   ("\xC2\xA1", "\xA1")]

/-- The `_html_entities` table of `DataCleaner.__init__`, in source order. -/
def htmlEntities : List (String × String) :=
  [("&amp;", "&"), ("&lt;", "<"), ("&gt;", ">"), ("&quot;", "\x22"),
   ("&#39;", "\x27"), ("&apos;", "\x27"), ("&nbsp;", " ")]

/-- Processing pipeline of `DataCleaner.clean_text` after the input guards:
mojibake fixes in table order, control-character removal, whitespace-run
collapsing (only when a run of two or more is present), strip, then HTML
entity replacement in table order.  The statistics counters the source
updates alongside do not affect the returned value and are not modelled. -/
def collapseIfRun (cs : List Char) : List Char :=
  if hasWsRun cs then collapseWs cs else cs

def cleanTextCore (cs : List Char) : List Char :=
  htmlEntities.foldl (fun acc p => replaceSeq p.1.data p.2.data acc)
    (stripChars (collapseIfRun
      ((encodingFixes.foldl (fun acc p => replaceSeq p.1.data p.2.data acc) cs).filter
        (fun c => ¬ isCtl c))))

/-- Model of `DataCleaner.clean_text`: returns null for falsy / NaN /
blank / "nan" input, otherwise runs `cleanTextCore` on `str(text)`; the
catch-all handler (reached when the boolean context of `pd.isna` raises on
an array-like argument) returns `str(text)` unchanged for truthy input. -/
def clean_text (v : Val) : Option String :=
  if ¬ pyTruthy v then Option.none
  else
    match pdIsnaBool v with
    | .error _ => some (pyStr v)
    | .ok true => Option.none
    | .ok false =>
      if pyStrip (pyStr v) = "" then Option.none
      else if pyLower (pyStr v) = "nan" then Option.none
      else
        let t := cleanTextCore (pyStr v).data
        if t.isEmpty then Option.none else some (String.mk t)

/-! Date standardization, `DataCleaner.standardize_date_format`
(Scripts/processors/data_cleaning.py). -/

/-- Gregorian leap-year rule used by `datetime`. -/
def isLeap (y : Nat) : Bool := (y % 4 == 0 && y % 100 != 0) || y % 400 == 0

/-- Number of days in a month, as validated by `datetime`. -/
def daysInMonth (y m : Nat) : Nat :=
  if m = 2 then (if isLeap y then 29 else 28)
  else if m = 4 ∨ m = 6 ∨ m = 9 ∨ m = 11 then 30
  else 31

/-- Validity of a year/month/day triple under `datetime.strptime`. -/
def validYMD (y m d : Nat) : Bool :=
  1 ≤ y && y ≤ 9999 && 1 ≤ m && m ≤ 12 && 1 ≤ d && d ≤ daysInMonth y m

/-- Parse a strptime `%Y` field: exactly four digits. -/
def parseY (cs : List Char) : Option Nat :=
  if cs.length = 4 ∧ cs.all Char.isDigit then some (natOfDigits cs) else Option.none

/-- Parse a strptime `%m` or `%d` field: one or two digits (range checked
by `validYMD`). -/
def parseMD (cs : List Char) : Option Nat :=
  if (cs.length = 1 ∨ cs.length = 2) ∧ cs.all Char.isDigit then some (natOfDigits cs)
  else Option.none

/-- Parse a three-field date with the given separator; `roles` maps the
three parts to (year, month, day) positions 0/1/2. -/
def parseDate3 (sep : Char) (yPos mPos dPos : Nat) (cs : List Char) : Option (Nat × Nat × Nat) :=
  match cs.splitOn sep with
  | [a, b, c] =>
    let parts := [a, b, c]
    match parseY (parts.getD yPos []), parseMD (parts.getD mPos []), parseMD (parts.getD dPos []) with
    | some y, some m, some d => if validYMD y m d then some (y, m, d) else Option.none
    | _, _, _ => Option.none
  | _ => Option.none

/-- Parse a strptime `%Y-%m` date. -/
def parseDateYm (cs : List Char) : Option (Nat × Nat) :=
  match cs.splitOn '-' with
  | [a, b] =>
    match parseY a, parseMD b with
    | some y, some m => if validYMD y m 1 then some (y, m) else Option.none
    | _, _ => Option.none
  | _ => Option.none

/-- Zero-pad a number to two digits (strftime `%m`, `%d`). -/
def pad2 (n : Nat) : String := if n < 10 then "0" ++ toString n else toString n

/-- Zero-pad a number to four digits (strftime `%Y`). -/
def pad4 (n : Nat) : String :=
  if n < 10 then "000" ++ toString n
  else if n < 100 then "00" ++ toString n
  else if n < 1000 then "0" ++ toString n
  else toString n

/-- Render a parsed date back in canonical `YYYY-MM-DD` form. -/
def fmtYmdOut (y m d : Nat) : String := pad4 y ++ "-" ++ pad2 m ++ "-" ++ pad2 d

/-- Format loop of `standardize_date_format`: the formats are tried in
source order `%Y-%m-%d`, `%d/%m/%Y`, `%m/%d/%Y`, `%Y/%m/%d`, `%Y`,
`%Y-%m`, `%d-%m-%Y`, `%m-%d-%Y`; the `%Y` and `%Y-%m` entries short-circuit
on string length 4 resp. 7 and return without parsing, exactly as the
source does (for a length-4 string the `%Y` branch fires before strptime is
ever consulted, and strptime with `%Y` can succeed only on length-4 input,
so its fallthrough never fires; likewise for `%Y-%m` with length 7). -/
def standardizeLoop (s : String) : Option String :=
  let cs := s.data
  match parseDate3 '-' 0 1 2 cs with
  | some (y, m, d) => some (fmtYmdOut y m d)
  | Option.none =>
  match parseDate3 '/' 2 1 0 cs with
  | some (y, m, d) => some (fmtYmdOut y m d)
  | Option.none =>
  match parseDate3 '/' 2 0 1 cs with
  | some (y, m, d) => some (fmtYmdOut y m d)
  | Option.none =>
  match parseDate3 '/' 0 1 2 cs with
  | some (y, m, d) => some (fmtYmdOut y m d)
  | Option.none =>
  if cs.length = 4 then some (s ++ "-01-01")
  else if cs.length = 7 then some (s ++ "-01")
  else
  match parseDateYm cs with
  | some (y, m) => some (fmtYmdOut y m 1)
  | Option.none =>
  match parseDate3 '-' 2 1 0 cs with
  | some (y, m, d) => some (fmtYmdOut y m d)
  | Option.none =>
  match parseDate3 '-' 2 0 1 cs with
  | some (y, m, d) => some (fmtYmdOut y m d)
  | Option.none => Option.none

/-- Model of `DataCleaner.standardize_date_format`: guards for
null/NaN/blank/"nan" input, then the format loop on the stripped string.
The function is wrapped in a catch-all `try/except` returning `None`, so it
is total; a boolean-context `pd.isna` failure on an array-like argument
lands in that handler. -/
def standardize_date_format (v : Val) : Option String :=
  if ¬ pyTruthy v then Option.none
  else
    match pdIsnaBool v with
    | .error _ => Option.none
    | .ok true => Option.none
    | .ok false =>
      if pyStrip (pyStr v) = "" then Option.none
      else
        let s := pyStrip (pyStr v)
        if pyLower s = "nan" then Option.none
        else standardizeLoop s

/-! Helper lemmas about `replaceSeq`: a pattern that does not occur in a
string leaves it unchanged under replacement. -/

/-- Membership transfer along a verified prefix. -/
theorem mem_of_isPrefixOf {pat s : List Char} (h : pat.isPrefixOf s = true)
    {c : Char} (hc : c ∈ pat) : c ∈ s := by
  induction pat generalizing s with
  | nil => cases hc
  | cons a as ih =>
    cases s with
    | nil => simp [List.isPrefixOf] at h
    | cons b bs =>
      simp only [List.isPrefixOf, Bool.and_eq_true, beq_iff_eq] at h
      rcases List.mem_cons.mp hc with rfl | hmem
      · simp [h.1]
      · exact List.mem_cons_of_mem _ (ih h.2 hmem)

/-- A string missing some character of the pattern cannot contain the
pattern. -/
theorem containsSeq_eq_false_of_not_mem {pat s : List Char} {c : Char}
    (hc : c ∈ pat) (hs : c ∉ s) : containsSeq pat s = false := by
  induction s with
  | nil =>
    have : ¬ pat.isEmpty = true := by
      cases pat with
      | nil => cases hc
      | cons _ _ => simp [List.isEmpty]
    simpa [containsSeq] using this
  | cons b bs ih =>
    have hnb : c ∉ bs := fun h => hs (List.mem_cons_of_mem _ h)
    have h1 : pat.isPrefixOf (b :: bs) = false := by
      by_contra h
      exact hs (mem_of_isPrefixOf (by simpa using h) hc)
    simp [containsSeq, h1, ih hnb]

/-- Replacement of a non-occurring pattern is the identity (fueled form). -/
theorem replaceSeqAux_of_no_occur {pat : List Char} (rep : List Char)
    {s : List Char} (h : containsSeq pat s = false) (fuel : Nat) :
    replaceSeqAux pat rep fuel s = s := by
  induction fuel generalizing s with
  | zero => rfl
  | succ n ih =>
    cases s with
    | nil => rfl
    | cons c rest =>
      simp only [containsSeq, Bool.or_eq_false_iff] at h
      simp [replaceSeqAux, h.1, ih h.2]

/-- Replacement of a non-occurring pattern is the identity. -/
theorem replaceSeq_of_no_occur {pat : List Char} (rep : List Char)
    {s : List Char} (h : containsSeq pat s = false) :
    replaceSeq pat rep s = s :=
  replaceSeqAux_of_no_occur rep h s.length

/-- Folding a replacement table over a string containing none of the keys
is the identity. -/
theorem foldl_replace_of_no_occur (tbl : List (String × String))
    {t : List Char} (h : ∀ p ∈ tbl, containsSeq p.1.data t = false) :
    tbl.foldl (fun acc p => replaceSeq p.1.data p.2.data acc) t = t := by
  induction tbl with
  | nil => rfl
  | cons p ps ih =>
    have h1 : replaceSeq p.1.data p.2.data t = t :=
      replaceSeq_of_no_occur _ (h p (List.mem_cons_self _ _))
    simp only [List.foldl_cons, h1]
    exact ih fun q hq => h q (List.mem_cons_of_mem _ hq)

/-- Lead characters of all mojibake keys. -/
def mojibakeLeads : List Char := ['\xE2', '\xC3', '\xC2']

/-- Every encoding-fix key starts with a mojibake lead character. -/
theorem encodingFixes_head_lead :
    encodingFixes.all (fun p =>
      match p.1.data with
      | [] => false
      | c :: _ => mojibakeLeads.contains c) = true := by decide

/-- Every HTML-entity key contains an ampersand. -/
theorem htmlEntities_has_amp :
    htmlEntities.all (fun p => p.1.data.contains '&') = true := by decide

/-- C2: the spec claims `standardize_date` returns null for every input
matching no supported format, with `"2021" ↦ "2021-01-01"`,
`"15/03/2020" ↦ "2020-03-15"`, `"garbage" ↦ null`.  The first two hold,
but the `%Y-%m` entry of the format loop returns any length-7 string with
`-01` appended without ever parsing it (and the `%Y` entry does the same
for length-4 strings), so `standardize_date_format "garbage"` returns
`"garbage-01"`, not null: the code contradicts the documented intent of
the format loop. -/
theorem c2_standardize_date_garbage :
    standardize_date_format (Val.str "2021") = some "2021-01-01" ∧
    standardize_date_format (Val.str "15/03/2020") = some "2020-03-15" ∧
    standardize_date_format (Val.str "garbage") = some "garbage-01" ∧
    some "garbage-01" ≠ (Option.none : Option String) := by
  refine ⟨by decide, by decide, by decide, by decide⟩

/-- C8 counterexample: `clean_text` is not idempotent.  HTML entities are
rewritten after whitespace collapsing and stripping, so a first pass can
produce new entities (or new whitespace) that only a second pass rewrites:
`clean_text "&amp;amp;"` yields `"&amp;"`, and applying `clean_text` to
that output yields `"&"`, a further change. -/
theorem c8_clean_text_not_idempotent :
    clean_text (Val.str "&amp;amp;") = some "&amp;" ∧
    clean_text (Val.str "&amp;") = some "&" ∧
    clean_text (Val.str "&amp;") ≠ some "&amp;" := by
  refine ⟨by decide, by decide, by decide⟩

/-- C8 (amended): `clean_text` is idempotent on every output that carries
none of the artifacts the second pass could still rewrite: an output that
is nonempty, is not `"nan"` case-insensitively, contains no control
character, no mojibake lead byte (`U+00E2`, `U+00C3`, `U+00C2`), no
ampersand, no run of two whitespace characters, and no leading or trailing
whitespace is returned unchanged by a second application.  (In general
idempotence fails; see the counterexample.) -/
theorem c8_clean_text_idempotent_on_clean_outputs (t : String)
    (hne : t ≠ "")
    (hnan : pyLower t ≠ "nan")
    (hchars : ∀ c ∈ t.data, isCtl c = false ∧ mojibakeLeads.contains c = false ∧ c ≠ '&')
    (hrun : hasWsRun t.data = false)
    (hstrip : stripChars t.data = t.data) :
    clean_text (.str t) = some t := by
  have hmk : String.mk t.data = t := rfl
  have htruthy : pyTruthy (.str t) = true := by simp [pyTruthy, hne]
  have hps : pyStrip t = t := by rw [pyStrip, hstrip, hmk]
  have hdata : t.data.isEmpty = false := by
    cases hd : t.data with
    | nil => exact absurd (by rw [← hmk, hd]) hne
    | cons a l => rfl
  have henc : ∀ p ∈ encodingFixes, containsSeq p.1.data t.data = false := by
    intro p hp
    have hall := List.all_eq_true.mp encodingFixes_head_lead p hp
    cases hd : p.1.data with
    | nil => rw [hd] at hall; simp at hall
    | cons c cs =>
      rw [hd] at hall
      have hcl : mojibakeLeads.contains c = true := by simpa using hall
      have hnot : c ∉ t.data := fun hmem => by
        have hf := (hchars c hmem).2.1
        rw [hf] at hcl; exact Bool.false_ne_true hcl
      exact containsSeq_eq_false_of_not_mem (List.mem_cons_self _ _) hnot
  have hent : ∀ p ∈ htmlEntities, containsSeq p.1.data t.data = false := by
    intro p hp
    have hall := List.all_eq_true.mp htmlEntities_has_amp p hp
    have hcmem : '&' ∈ p.1.data := by
      simpa [List.contains] using hall
    have hnot : '&' ∉ t.data := fun hmem => (hchars _ hmem).2.2 rfl
    exact containsSeq_eq_false_of_not_mem hcmem hnot
  have hcore : cleanTextCore t.data = t.data := by
    rw [cleanTextCore]
    rw [foldl_replace_of_no_occur encodingFixes henc]
    have hfil : t.data.filter (fun c => ¬ isCtl c) = t.data :=
      List.filter_eq_self.mpr (fun c hc => by simp [(hchars c hc).1])
    rw [hfil, collapseIfRun, if_neg (by simp [hrun]), hstrip,
      foldl_replace_of_no_occur htmlEntities hent]
  rw [clean_text]
  simp only [htruthy, Bool.not_true, pdIsnaBool, pdIsnaScalar]
  rw [if_neg (by simp)]
  simp only [pyStr]
  rw [if_neg (by rw [hps]; exact hne), if_neg hnan, hcore]
  rw [if_neg (by simp [hdata]), hmk]

/-- C8 witness: the amended idempotence theorem applied at the concrete
clean output `"Movie Title"`. -/
theorem c8_clean_text_idempotent_witness :
    ("Movie Title" ≠ "" ∧ pyLower "Movie Title" ≠ "nan" ∧
      (∀ c ∈ "Movie Title".data,
        isCtl c = false ∧ mojibakeLeads.contains c = false ∧ c ≠ '&') ∧
      hasWsRun "Movie Title".data = false ∧
      stripChars "Movie Title".data = "Movie Title".data) ∧
    clean_text (.str "Movie Title") = some "Movie Title" :=
  ⟨⟨by decide, by decide, by decide, by decide, by decide⟩,
    c8_clean_text_idempotent_on_clean_outputs "Movie Title" (by decide) (by decide)
      (by decide) (by decide) (by decide)⟩

/-! Enrichment engine, `ModifiedDataEnrichment`
(Scripts/data_enrichment_v2.py). -/

/-- A row of the dataset as produced by `df.iloc[index].to_dict()`:
ordered field/value pairs with unique keys; `row.get(field)` yields `None`
for an absent key. -/
def rowGet (row : List (String × Val)) (k : String) : Val :=
  match bagGet row k with
  | some v => v
  | Option.none => Val.none

/-- Python dict assignment `row[k] = v`: an existing key keeps its
position, a new key is appended. -/
def rowSet : List (String × Val) → String → Val → List (String × Val)
  | [], k, v => [(k, v)]
  | (k0, v0) :: rest, k, v =>
    if k0 = k then (k0, v) :: rest else (k0, v0) :: rowSet rest k v

/-- The `target_columns` attribute: every column checked for missing data
(the loop in `enrich_movie_row` additionally skips `id`, which the list
does not contain anyway). -/
def target_columns : List String :=
  ["title", "release_date", "budget", "revenue", "vote_average",
   "vote_count", "popularity", "rating", "runtime", "genres", "keywords",
   "production_companies", "production_countries", "spoken_languages",
   "director", "writers", "cast_top_5"]

/-- Model of `ModifiedDataEnrichment.is_field_missing`.  The only
exception the body can raise is the boolean-context `pd.isna` on an
array-like value (the numeric coercions sit inside `try/except`); the
comparison lists are exactly the case-sensitive source literals. -/
def is_field_missing (value : Val) (field_name : String) : Except Unit Bool :=
  match pdIsnaBool value with
  | .error e => .error e
  | .ok true => .ok true
  | .ok false =>
  let sv := pyStrip (pyStr value)
  if ["", "nan", "NaN", "NULL", "null", "None", "[]", "[ ]"].contains sv then
    .ok true
  else if ["budget", "revenue", "vote_count", "popularity", "runtime"].contains field_name then
    match pyFloat sv with
    | some f => .ok (decide (f.num = 0 ∨ f.num < 0))
    | Option.none => .ok true
  else if ["vote_average", "rating"].contains field_name then
    match pyFloat sv with
    | some f => .ok (decide (f.num = 0 ∨ f.num < 0))
    | Option.none => .ok true
  else if ["genres", "keywords", "production_companies", "production_countries",
      "spoken_languages"].contains field_name then
    let cleaned := sv.data.filter (fun c => c ≠ ' ' ∧ c ≠ '\t' ∧ c ≠ '\n')
    let cl := pyLower (String.mk cleaned)
    .ok (["[]", "[ ]", "[,]", "\x22\x22", "\x27\x27", "\x7b\x7d", "false",
      "false"].contains cl)
  else if ["title", "director", "writers", "cast_top_5"].contains field_name then
    let meaningful :=
      ¬ (["", "0", "false", "FALSE", "unknown", "Unknown", "N/A", "n/a"].contains sv)
    .ok (¬ meaningful)
  else if field_name = "adult" then
    .ok (["", "nan", "none", "null"].contains (pyLower sv))
  else
    .ok false

/-- Writer job labels matched (by substring) in `get_writers_from_credits`. -/
def writer_jobs : List String := ["Writer", "Screenplay", "Story", "Novel", "Adaptation"]

/-- Crew scan of `get_writers_from_credits`: collects the name of every
crew member whose job label contains one of the writer job labels,
deduplicating by Python `==` while preserving order; a non-dict crew
member raises (`.get` on it fails), which the caller turns into `None`. -/
def crewWriterNames : List Val → List Val → Option (List Val)
  | acc, [] => some acc
  | acc, m :: rest =>
    match m with
    | .dict kvs =>
      let job := match bagGet kvs "job" with
        | some j => j
        | Option.none => Val.str ""
      match job with
      | .str js =>
        let isW := writer_jobs.any (fun wj => containsSeq wj.data js.data)
        let nameV := match bagGet kvs "name" with
          | some n => n
          | Option.none => Val.none
        if isW ∧ pyTruthy nameV ∧ ¬ acc.any (fun x => pyEq x nameV) then
          crewWriterNames (acc ++ [nameV]) rest
        else
          crewWriterNames acc rest
      | _ => Option.none
    | _ => Option.none

/-- Python `", ".join(xs)`: every element must be a string, otherwise the
join raises (turned into `None` by the catch-all of the callers). -/
def joinCommaStrs : List Val → Option String
  | [] => some ""
  | xs =>
    let rec collect : List Val → Option (List String)
      | [] => some []
      | .str s :: rest =>
        match collect rest with
        | some ss => some (s :: ss)
        | Option.none => Option.none
      | _ => Option.none
    match collect xs with
    | some ss => some (String.intercalate ", " ss)
    | Option.none => Option.none

/-- Model of `ModifiedDataEnrichment.get_writers_from_credits`: extracts
up to five deduplicated writer names as a comma-joined string; `None` for
missing/shapeless credits, an empty scan, or any internal exception. -/
def get_writers_from_credits (credits_data : Option Val) : Option String :=
  match credits_data with
  | Option.none => Option.none
  | some cv =>
    if ¬ pyTruthy cv then Option.none
    else
      match cv with
      | .dict kvs =>
        match bagGet kvs "crew" with
        | Option.none => Option.none
        | some (.list crew) =>
          match crewWriterNames [] crew with
          | some writers =>
            if writers.isEmpty then Option.none
            else joinCommaStrs (writers.take 5)
          | Option.none => Option.none
        | some _ => Option.none
      | _ => Option.none

/-- Cast scan of `get_top_cast_from_credits`: the first five cast entries
in external order, keeping every truthy name (no deduplication); a
non-dict entry raises, turned into `None` by the caller. -/
def castNames : List Val → Option (List Val)
  | [] => some []
  | m :: rest =>
    match m with
    | .dict kvs =>
      let nameV := match bagGet kvs "name" with
        | some n => n
        | Option.none => Val.none
      match castNames rest with
      | some ns => some (if pyTruthy nameV then nameV :: ns else ns)
      | Option.none => Option.none
    | _ => Option.none

/-- Model of `ModifiedDataEnrichment.get_top_cast_from_credits`. -/
def get_top_cast_from_credits (credits_data : Option Val) : Option String :=
  match credits_data with
  | Option.none => Option.none
  | some cv =>
    if ¬ pyTruthy cv then Option.none
    else
      match cv with
      | .dict kvs =>
        match bagGet kvs "cast" with
        | Option.none => Option.none
        | some (.list cast) =>
          match castNames (cast.take 5) with
          | some ns =>
            if ns.isEmpty then Option.none
            else joinCommaStrs ns
          | Option.none => Option.none
        | some _ => Option.none
      | _ => Option.none

/-- Find the director name in the credits, as the `director` branch of the
merge loop does: `if credits_data and "crew" in credits_data`, then the
first crew entry whose job equals `"Director"`; iterating a non-list crew
or reading `.get` off a non-dict entry raises (propagated: the merge loop
has no handler of its own). -/
def findDirector : Option Val → Except Unit (Option Val)
  | Option.none => .ok Option.none
  | some cv =>
    if ¬ pyTruthy cv then .ok Option.none
    else
      match cv with
      | .dict kvs =>
        match bagGet kvs "crew" with
        | Option.none => .ok Option.none
        | some (.list crew) =>
          let rec scan : List Val → Except Unit (Option Val)
            | [] => .ok Option.none
            | m :: rest =>
              match m with
              | .dict mk1 =>
                let job := match bagGet mk1 "job" with
                  | some j => j
                  | Option.none => Val.none
                if pyEq job (.str "Director") then
                  .ok (some (match bagGet mk1 "name" with
                    | some n => n
                    | Option.none => Val.none))
                else scan rest
              | _ => .error ()
          scan crew
        | some _ => .error ()
      | _ => .error ()

/-- Name extraction used by the list-field merge branch when the first
element is a dict: `[item.get("name", str(item)) for item in v if
item.get("name")]` (the filter makes the default dead); a non-dict later
element raises. -/
def pluckNames : List Val → Except Unit (List Val)
  | [] => .ok []
  | m :: rest =>
    match m with
    | .dict kvs =>
      let nameV := match bagGet kvs "name" with
        | some n => n
        | Option.none => Val.none
      match pluckNames rest with
      | .ok ns => .ok (if pyTruthy nameV then nameV :: ns else ns)
      | .error e => .error e
    | _ => .error ()

/-- Python `", ".join(str(item) for item in xs)`, total. -/
def joinCommaStr (xs : List Val) : String :=
  String.intercalate ", " (xs.map pyStr)

/-- One iteration of the merge loop of `enrich_movie_row` (lines 366-449)
for a single missing field: numeric fields copy when present and non-None,
with a truthy-and-nonzero guard for budget/revenue only; `vote_average` /
`rating` copy the external `vote_average` when positive; the five direct
text fields copy the stripped string when not a null sentinel; `director`
comes from the credits crew; the five list fields are joined to a
comma-separated string.  `writers` and `cast_top_5` match none of the
branches, so the loop never fills them. -/
def fillStep (tmdb : List (String × Val)) (credits : Option Val)
    (st : List (String × Val) × Bool) (field : String) :
    Except Unit (List (String × Val) × Bool) :=
  let row := st.1
  let enriched := st.2
  if ["budget", "revenue", "runtime", "vote_count", "popularity"].contains field then
    match bagGet tmdb field with
    | some v =>
      match v with
      | .none => .ok (row, enriched)
      | _ =>
        if ["budget", "revenue"].contains field then
          if pyTruthy v ∧ pyNeZero v then .ok (rowSet row field v, true)
          else .ok (row, enriched)
        else .ok (rowSet row field v, true)
    | Option.none => .ok (row, enriched)
  else if ["vote_average", "rating"].contains field then
    match bagGet tmdb "vote_average" with
    | some v =>
      match v with
      | .none => .ok (row, enriched)
      | _ =>
        if pyTruthy v then
          match pyGtZero v with
          | .ok gt => if gt then .ok (rowSet row field v, true) else .ok (row, enriched)
          | .error e => .error e
        else .ok (row, enriched)
    | Option.none => .ok (row, enriched)
  else if ["title", "release_date", "overview", "tagline", "status"].contains field then
    match bagGet tmdb field with
    | some v =>
      match v with
      | .none => .ok (row, enriched)
      | _ =>
        let s := pyStrip (pyStr v)
        if s ≠ "" ∧ ¬ ["", "null", "None"].contains s then
          .ok (rowSet row field (.str s), true)
        else .ok (row, enriched)
    | Option.none => .ok (row, enriched)
  else if field = "director" then
    match findDirector credits with
    | .ok (some n) => if pyTruthy n then .ok (rowSet row field n, true) else .ok (row, enriched)
    | .ok Option.none => .ok (row, enriched)
    | .error e => .error e
  else if ["genres", "keywords", "production_companies", "production_countries",
      "spoken_languages"].contains field then
    match bagGet tmdb field with
    | some v =>
      if pyTruthy v then
        match v with
        | .list items =>
          match items with
          | first :: _ =>
            match first with
            | .dict _ =>
              match pluckNames items with
              | .ok names =>
                if ¬ names.isEmpty then
                  match joinCommaStrs names with
                  | some joined => .ok (rowSet row field (.str joined), true)
                  | Option.none => .error ()
                else .ok (row, enriched)
              | .error e => .error e
            | _ => .ok (rowSet row field (.str (joinCommaStr items)), true)
          | [] => .ok (row, enriched)
        | .str s =>
          if pyStrip s ≠ "" then .ok (rowSet row field v, true)
          else .ok (row, enriched)
        | _ => .ok (row, enriched)
      else .ok (row, enriched)
    | Option.none => .ok (row, enriched)
  else
    .ok (row, enriched)

/-- Folding the merge loop over the missing-field list. -/
def fill_missing_from_tmdb (tmdb : List (String × Val)) (credits : Option Val) :
    List String → List (String × Val) × Bool → Except Unit (List (String × Val) × Bool)
  | [], st => .ok st
  | f :: rest, st =>
    match fillStep tmdb credits st f with
    | .ok st2 => fill_missing_from_tmdb tmdb credits rest st2
    | .error e => .error e

/-- Missing-field computation of `enrich_movie_row`: every target column
(the `id` guard in the source is vacuous since `target_columns` has no
`id`) whose row value is missing per `is_field_missing`. -/
def compute_missing_fields (row : List (String × Val)) : Except Unit (List String) :=
  let rec go : List String → Except Unit (List String)
    | [] => .ok []
    | f :: rest =>
      if f ≠ "id" then
        match is_field_missing (rowGet row f) f with
        | .ok m =>
          match go rest with
          | .ok ms => .ok (if m then f :: ms else ms)
          | .error e => .error e
        | .error e => .error e
      else go rest
  go target_columns

/-- Model of `ModifiedDataEnrichment.enrich_movie_row`.  The two TMDb
network fetches are abstracted by the `resp` parameter: the field bag of
the response obtained by the ID fetch or the search fallback (with credits
appended under the `"credits"` key), `none` when both paths yielded
nothing.  The `id` overwrite on the search path is not modelled; the
claims checked below concern the missing-field computation and the merge
loop, which this function reproduces line by line. -/
def enrich_movie_row (row : List (String × Val))
    (resp : Option (List (String × Val))) :
    Except Unit (List (String × Val) × Bool) :=
  match compute_missing_fields row with
  | .error e => .error e
  | .ok missing =>
    if missing.isEmpty then .ok (row, false)
    else
      match resp with
      | Option.none => .ok (row, false)
      | some tmdb => fill_missing_from_tmdb tmdb (bagGet tmdb "credits") missing (row, false)

/-- Setting one key leaves every other key's lookup unchanged. -/
theorem rowGet_rowSet_ne (row : List (String × Val)) (k k2 : String) (v : Val)
    (h : k ≠ k2) : rowGet (rowSet row k v) k2 = rowGet row k2 := by
  induction row with
  | nil => simp [rowSet, rowGet, bagGet, List.find?, beq_false_of_ne h]
  | cons p rest ih =>
    obtain ⟨k0, v0⟩ := p
    by_cases hk : k0 = k
    · subst hk
      have hne2 : (k0 == k2) = false := beq_false_of_ne h
      simp [rowSet, rowGet, bagGet, List.find?_cons, hne2]
    · by_cases h2 : k0 = k2
      · subst h2
        simp [rowSet, hk, rowGet, bagGet, List.find?_cons]
      · have hne2 : (k0 == k2) = false := beq_false_of_ne h2
        simpa [rowSet, hk, rowGet, bagGet, List.find?_cons, hne2] using ih

/-- Every write the merge loop performs for a field targets that field:
the resulting row is the input row, possibly with the processed field
re-assigned. -/
theorem fillStep_row_shape (tmdb : List (String × Val)) (credits : Option Val)
    (st st2 : List (String × Val) × Bool) (field : String)
    (h : fillStep tmdb credits st field = .ok st2) :
    st2.1 = st.1 ∨ ∃ w, st2.1 = rowSet st.1 field w := by
  unfold fillStep at h
  repeat' (first | (split at h) | (simp only [] at h))
  all_goals first
    | (injection h with h2; subst h2; left; rfl)
    | (injection h with h2; subst h2; right; exact ⟨_, rfl⟩)
    | (cases h)

/-- The metadata value for a field is absent, `None`, falsy, or compares
equal to zero — the situations in which the claim says nothing may be
copied. -/
def zeroOrAbsentMeta (tmdb : List (String × Val)) (f : String) : Prop :=
  match bagGet tmdb f with
  | Option.none => True
  | some v => v = Val.none ∨ pyTruthy v = false ∨ pyNeZero v = false

/-- For `budget` and `revenue` the merge step never writes a zero, falsy
or absent metadata value: the row entry is untouched. -/
theorem fillStep_preserves_finzero (tmdb : List (String × Val)) (credits : Option Val)
    (st st2 : List (String × Val) × Bool) (f : String)
    (hf : f = "budget" ∨ f = "revenue")
    (hmeta : zeroOrAbsentMeta tmdb f)
    (h : fillStep tmdb credits st f = .ok st2) :
    st2.1 = st.1 := by
  have hmem : (["budget", "revenue", "runtime", "vote_count", "popularity"].contains f) = true := by
    rcases hf with rfl | rfl <;> rfl
  have hmem2 : (["budget", "revenue"].contains f) = true := by
    rcases hf with rfl | rfl <;> rfl
  unfold fillStep at h
  unfold zeroOrAbsentMeta at hmeta
  cases hb : bagGet tmdb f with
  | none =>
    rw [hb] at h
    simp only [hmem, if_true] at h
    injection h with h2; subst h2; rfl
  | some v =>
    rw [hb] at h hmeta
    rcases hmeta with rfl | htr | hnz
    · simp only [hmem, if_true] at h
      injection h with h2; subst h2; rfl
    · cases v <;>
        simp only [hmem, hmem2, if_true, htr, Bool.false_eq_true, false_and, and_false,
          if_false] at h <;>
        injection h with h2 <;> subst h2 <;> rfl
    · cases v <;>
        simp only [hmem, hmem2, if_true, hnz, Bool.false_eq_true, false_and, and_false,
          if_false] at h <;>
        injection h with h2 <;> subst h2 <;> rfl

/-- C5 (amended): in the merge step only `budget` and `revenue` are
guarded against zero — for those two fields a metadata value that is
absent, `None`, falsy, or equal to zero is never written into the row.
The other numeric fields (`runtime`, `vote_count`, `popularity`)
deliberately copy any present non-`None` value, including zero (see the
counterexample). -/
theorem c5_budget_revenue_zero_guard (missing : List String)
    (tmdb : List (String × Val)) (credits : Option Val)
    (row : List (String × Val)) (e : Bool) (st2 : List (String × Val) × Bool)
    (f : String)
    (hf : f = "budget" ∨ f = "revenue")
    (hmeta : zeroOrAbsentMeta tmdb f)
    (h : fill_missing_from_tmdb tmdb credits missing (row, e) = .ok st2) :
    rowGet st2.1 f = rowGet row f := by
  induction missing generalizing row e with
  | nil =>
    unfold fill_missing_from_tmdb at h
    injection h with h2; subst h2; rfl
  | cons fld rest ih =>
    unfold fill_missing_from_tmdb at h
    cases hs : fillStep tmdb credits (row, e) fld with
    | error err => rw [hs] at h; cases h
    | ok st1 =>
      rw [hs] at h
      obtain ⟨r1, e1⟩ := st1
      have key : rowGet r1 f = rowGet row f := by
        by_cases hff : fld = f
        · subst hff
          have h1 : r1 = row :=
            fillStep_preserves_finzero tmdb credits (row, e) (r1, e1) fld hf hmeta hs
          rw [h1]
        · rcases fillStep_row_shape tmdb credits (row, e) (r1, e1) fld hs with he | ⟨w, hw⟩
          · have h1 : r1 = row := he
            rw [h1]
          · have h1 : r1 = rowSet row fld w := hw
            rw [h1]; exact rowGet_rowSet_ne _ _ _ _ hff
      rw [ih r1 e1 h, key]

/-- C5 witness: the guard theorem applied at a concrete call: a zero
`budget` in the metadata bag leaves the row's missing budget untouched. -/
theorem c5_budget_revenue_zero_guard_witness :
    (("budget" : String) = "budget" ∨ ("budget" : String) = "revenue") ∧
    zeroOrAbsentMeta [("budget", Val.int 0)] "budget" ∧
    fill_missing_from_tmdb [("budget", Val.int 0)] Option.none ["budget"]
      ([("budget", Val.str "")], false) = .ok ([("budget", Val.str "")], false) ∧
    rowGet ([("budget", Val.str "")] : List (String × Val)) "budget" =
      rowGet [("budget", Val.str "")] "budget" :=
  ⟨Or.inl rfl,
   Or.inr (Or.inl rfl),
   rfl,
   c5_budget_revenue_zero_guard ["budget"] [("budget", Val.int 0)] Option.none
     [("budget", Val.str "")] false ([("budget", Val.str "")], false) "budget"
     (Or.inl rfl) (Or.inr (Or.inl rfl)) rfl⟩

/-- C5 counterexample: the claim that every missing numeric field copies
only non-zero metadata is false — a missing `runtime` with metadata
`runtime = 0` has the zero written into the row (and the row is marked
enriched), because the non-zero guard covers only `budget` and `revenue`
(the source comment reads: for other numeric fields, accept any value
including 0). -/
theorem c5_runtime_zero_written :
    enrich_movie_row [("runtime", Val.str "")] (some [("runtime", Val.int 0)]) =
      .ok ([("runtime", Val.int 0)], true) ∧
    rowGet [("runtime", Val.int 0)] "runtime" = Val.int 0 := by
  exact ⟨rfl, rfl⟩

/-- Demo row for C4: every target field holds usable data except `writers`
and `cast_top_5`, which are blank. -/
def c4Row : List (String × Val) :=
  [("id", .int 27205), ("title", .str "Inception"), ("release_date", .str "2010-07-16"),
   ("budget", .str "160000000"), ("revenue", .str "825532764"), ("vote_average", .str "8.3"),
   ("vote_count", .str "34000"), ("popularity", .str "29.1"), ("rating", .str "8.3"),
   ("runtime", .str "148"), ("genres", .str "Action"), ("keywords", .str "dream"),
   ("production_companies", .str "WB"), ("production_countries", .str "US"),
   ("spoken_languages", .str "English"), ("director", .str "Christopher Nolan"),
   ("writers", .str ""), ("cast_top_5", .str "")]

/-- Demo credits for C4: a screenplay writer and one cast member. -/
def c4Credits : Val :=
  .dict [("cast", .list [.dict [("name", .str "Leonardo DiCaprio")]]),
         ("crew", .list [.dict [("job", .str "Screenplay"), ("name", .str "Christopher Nolan")]])]

/-- C4: the merge loop of `enrich_movie_row` has no branch for `writers`
or `cast_top_5`, so even when the fetched metadata record carries credits
with matching crew and cast entries, those two missing fields stay blank
and the row is not marked enriched — while the (never-called) extraction
helpers would have produced the names.  The claim that the merge fills
writer/cast fields from credits is contradicted by the code. -/
theorem c4_writers_cast_never_filled :
    compute_missing_fields c4Row = .ok ["writers", "cast_top_5"] ∧
    enrich_movie_row c4Row (some [("credits", c4Credits)]) = .ok (c4Row, false) ∧
    get_writers_from_credits (some c4Credits) = some "Christopher Nolan" ∧
    get_top_cast_from_credits (some c4Credits) = some "Leonardo DiCaprio" :=
  ⟨rfl, rfl, rfl, rfl⟩

/-- C7 counterexample: the sentinel comparison in `is_field_missing` is
case-sensitive, so the upper-case variants `"NONE"`, `"NAN"`, `"UNKNOWN"`
do not count as missing for a text field, contradicting the claim that
every case variant of a sentinel is missing. -/
theorem c7_case_variants_not_missing :
    is_field_missing (Val.str "NONE") "title" = .ok false ∧
    is_field_missing (Val.str "NAN") "title" = .ok false ∧
    is_field_missing (Val.str "UNKNOWN") "title" = .ok false ∧
    (Except.ok false : Except Unit Bool) ≠ .ok true :=
  ⟨rfl, rfl, rfl, fun h => by injection h with h2; cases h2⟩

/-- C7 (amended): for the text fields (`title`, `director`, `writers`,
`cast_top_5` — the source has no plain `cast` text field), a string value
is missing exactly when, after stripping, it equals one of the
case-sensitive literals `""`, `"nan"`, `"NaN"`, `"NULL"`, `"null"`,
`"None"`, `"[]"`, `"[ ]"` (the generic indicator list) or `"0"`,
`"false"`, `"FALSE"`, `"unknown"`, `"Unknown"`, `"N/A"`, `"n/a"` (the
meaningful-content list); a null value is always missing.  Other case
variants such as `"NONE"` are not missing. -/
theorem c7_text_missing_characterization (f s : String)
    (hf : f ∈ ["title", "director", "writers", "cast_top_5"]) :
    is_field_missing Val.none f = .ok true ∧
    (is_field_missing (Val.str s) f = .ok true ↔
      pyStrip s ∈ ["", "nan", "NaN", "NULL", "null", "None", "[]", "[ ]"] ∨
      pyStrip s ∈ ["", "0", "false", "FALSE", "unknown", "Unknown", "N/A", "n/a"]) := by
  have key : ∀ g : String,
      (["budget", "revenue", "vote_count", "popularity", "runtime"].contains g) = false →
      (["vote_average", "rating"].contains g) = false →
      (["genres", "keywords", "production_companies", "production_countries",
        "spoken_languages"].contains g) = false →
      (["title", "director", "writers", "cast_top_5"].contains g) = true →
      is_field_missing (Val.str s) g =
        .ok ((["", "nan", "NaN", "NULL", "null", "None", "[]", "[ ]"].contains (pyStrip s)) ||
             (["", "0", "false", "FALSE", "unknown", "Unknown", "N/A", "n/a"].contains (pyStrip s))) := by
    intro g hg1 hg2 hg3 hg4
    unfold is_field_missing
    simp only [pdIsnaBool, pdIsnaScalar, pyStr]
    by_cases h1 :
        (["", "nan", "NaN", "NULL", "null", "None", "[]", "[ ]"].contains (pyStrip s)) = true
    · rw [if_pos h1, h1, Bool.true_or]
    · rw [if_neg h1]
      simp only [Bool.not_eq_true] at h1
      rw [h1, Bool.false_or]
      simp only [hg1, hg2, hg3, hg4, Bool.false_eq_true, if_false, if_true]
      simp [not_not]
  have main : ∀ g : String,
      (["budget", "revenue", "vote_count", "popularity", "runtime"].contains g) = false →
      (["vote_average", "rating"].contains g) = false →
      (["genres", "keywords", "production_companies", "production_countries",
        "spoken_languages"].contains g) = false →
      (["title", "director", "writers", "cast_top_5"].contains g) = true →
      (is_field_missing (Val.str s) g = .ok true ↔
        pyStrip s ∈ ["", "nan", "NaN", "NULL", "null", "None", "[]", "[ ]"] ∨
        pyStrip s ∈ ["", "0", "false", "FALSE", "unknown", "Unknown", "N/A", "n/a"]) := by
    intro g hg1 hg2 hg3 hg4
    rw [key g hg1 hg2 hg3 hg4]
    simp only [Except.ok.injEq, Bool.or_eq_true]
    constructor
    · rintro (h | h)
      · exact Or.inl (List.mem_of_elem_eq_true h)
      · exact Or.inr (List.mem_of_elem_eq_true h)
    · rintro (h | h)
      · exact Or.inl (List.elem_eq_true_of_mem h)
      · exact Or.inr (List.elem_eq_true_of_mem h)
  simp only [List.mem_cons, List.not_mem_nil, or_false] at hf
  rcases hf with rfl | rfl | rfl | rfl <;>
    exact ⟨rfl, main _ rfl rfl rfl rfl⟩

/-- C7 witness: the characterization applied at `f = "title"`,
`s = "None"` (a sentinel, hence missing). -/
theorem c7_text_missing_witness :
    (("title" : String) ∈ ["title", "director", "writers", "cast_top_5"]) ∧
    (is_field_missing Val.none "title" = .ok true ∧
      (is_field_missing (Val.str "None") "title" = .ok true ↔
        pyStrip "None" ∈ ["", "nan", "NaN", "NULL", "null", "None", "[]", "[ ]"] ∨
        pyStrip "None" ∈ ["", "0", "false", "FALSE", "unknown", "Unknown", "N/A", "n/a"])) :=
  ⟨by decide, c7_text_missing_characterization "title" "None" (by decide)⟩

/-! Validation engine, `DataValidator` (Scripts/utils/validators.py). -/

/-- Model of `DataValidator.validate_list_field`.  Every explicit branch
returns `True`; the only `False` comes from the catch-all handler, which
is reached when `pd.isna(field)` is evaluated in boolean context on an
array-like argument (a Python list of length other than one), raising
`ValueError` — so the `isinstance(field, list)` branch below it is dead
for such lists. -/
def validate_list_field (field : Val) : Bool :=
  match field with
  | .none => true
  | v =>
    match pdIsnaBool v with
    | .error _ => false
    | .ok true => true
    | .ok false =>
      match v with
      | .list _ => true
      | _ => true

/-- C6: the claim that `validate_list_field` is the constant-true
predicate is contradicted by the code: for an actual Python list with two
or more elements, the `pd.isna` guard raises `ValueError` in boolean
context, the catch-all returns `False` — although the function's own
comments (`Empty lists are valid`, `Any list length is valid`) and the
spec document the intent that every value validates. -/
theorem c6_validate_list_field_false_on_lists :
    validate_list_field (Val.list [Val.str "Action", Val.str "Drama"]) = false ∧
    validate_list_field (Val.str "Action, Drama") = true ∧
    validate_list_field Val.none = true ∧
    validate_list_field Val.nan = true ∧
    validate_list_field (Val.list [Val.str "Action"]) = true :=
  ⟨rfl, rfl, rfl, rfl, rfl⟩

/-- Python `float(v) if v else 0`, the guarded coercion the value
arbitrator applies to each operand in its rating and financial branches. -/
def pyFloatOrZero (v : Val) : Except Unit Flt :=
  if pyTruthy v then pyToFloat v else .ok (fltOfInt 0)

/-- Python `int(float(v)) if v else 0`, used in the count and runtime
branches. -/
def pyIntOrZero (v : Val) : Except Unit Int :=
  if pyTruthy v then
    match pyToFloat v with
    | .ok f => .ok (fltTrunc f)
    | .error e => .error e
  else .ok 0

/-- Model of `DataValidator._choose_better_value` (written here without
the leading underscore).  The function has no exception handler: a
`float()`/`int()` coercion failure on a truthy unparsable operand, or the
boolean-context `pd.isna` on an array-like current value, propagates to
the caller. -/
def choose_better_value (column : String) (current_value api_value : Val) :
    Except Unit Val :=
  match pdIsnaBool current_value with
  | .error e => .error e
  | .ok isna =>
    if isna ∨ pyStrip (pyStr current_value) = "" ∨ pyLower (pyStr current_value) = "nan" then
      .ok api_value
    else if ["vote_average", "imdb_rating", "avg_rating"].contains column then
      match pyFloatOrZero current_value, pyFloatOrZero api_value with
      | .ok cv, .ok av =>
        if cv.num = 0 ∧ 0 < av.num then .ok api_value
        else if av.num = 0 ∧ 0 < cv.num then .ok current_value
        else .ok (if fltLt cv av then api_value else current_value)
      | .error e, _ => .error e
      | _, .error e => .error e
    else if ["vote_count", "imdb_votes", "total_ratings"].contains column then
      match pyIntOrZero current_value, pyIntOrZero api_value with
      | .ok cvi, .ok avi => .ok (if cvi < avi then api_value else current_value)
      | .error e, _ => .error e
      | _, .error e => .error e
    else if ["budget", "revenue"].contains column then
      match pyFloatOrZero current_value, pyFloatOrZero api_value with
      | .ok cv, .ok av =>
        if cv.num = 0 ∧ 0 < av.num then .ok api_value
        else if av.num = 0 ∧ 0 < cv.num then .ok current_value
        else .ok api_value
      | .error e, _ => .error e
      | _, .error e => .error e
    else if column = "runtime" then
      match pyIntOrZero current_value, pyIntOrZero api_value with
      | .ok cvi, .ok avi =>
        if 60 ≤ avi ∧ avi ≤ 300 then .ok api_value
        else if 60 ≤ cvi ∧ cvi ≤ 300 then .ok current_value
        else .ok api_value
      | .error e, _ => .error e
      | _, .error e => .error e
    else if ["genres", "cast", "director", "writers", "production_companies",
        "production_countries", "spoken_languages"].contains column then
      match api_value, current_value with
      | .list a, .list c => .ok (if c.length < a.length then api_value else current_value)
      | .list _, _ => .ok api_value
      | _, .list _ => .ok current_value
      | _, _ =>
        if (pyStrip (pyStr current_value)).length < (pyStrip (pyStr api_value)).length then
          .ok api_value
        else .ok current_value
    else
      .ok api_value

/-- Values on which the arbitrator's current-value coercions cannot raise:
scalars that are missing-sentinels or parse as numbers. -/
def numSafeCurrent : Val → Prop
  | .none => True
  | .nan => True
  | .int _ => True
  | .float _ => True
  | .str s => pyStrip s = "" ∨ pyLower s = "nan" ∨ (pyFloat s).isSome = true
  | .list _ => False
  | .dict _ => False

/-- Values on which the arbitrator's api-value coercions cannot raise
(NaN is excluded only because its arithmetic sits outside the rational
model; Python would return one of the operands for it as well). -/
def numSafeApi : Val → Prop
  | .none => True
  | .nan => False
  | .int _ => True
  | .float _ => True
  | .str s => s = "" ∨ (pyFloat s).isSome = true
  | .list _ => False
  | .dict _ => False

/-- A numerically safe api operand coerces to a float without raising. -/
theorem pyFloatOrZero_api_ok (api : Val) (ha : numSafeApi api) :
    ∃ f, pyFloatOrZero api = .ok f := by
  cases api with
  | none => exact ⟨_, rfl⟩
  | nan => cases ha
  | int n =>
    unfold pyFloatOrZero
    by_cases ht : pyTruthy (Val.int n) = true
    · rw [if_pos ht]; exact ⟨_, rfl⟩
    · rw [if_neg ht]; exact ⟨_, rfl⟩
  | float f =>
    unfold pyFloatOrZero
    by_cases ht : pyTruthy (Val.float f) = true
    · rw [if_pos ht]; exact ⟨_, rfl⟩
    · rw [if_neg ht]; exact ⟨_, rfl⟩
  | str s =>
    rcases ha with rfl | hp
    · exact ⟨_, rfl⟩
    · unfold pyFloatOrZero
      by_cases ht : pyTruthy (Val.str s) = true
      · rw [if_pos ht]
        unfold pyToFloat
        cases hf : pyFloat s with
        | none => simp [hf] at hp
        | some f => simp only [hf]; exact ⟨f, rfl⟩
      · rw [if_neg ht]; exact ⟨_, rfl⟩
  | list xs => cases ha
  | dict kvs => cases ha

/-- A numerically safe current operand that escaped the missing-value
early exit coerces to a float without raising. -/
theorem pyFloatOrZero_cur_ok (cur : Val) (hc : numSafeCurrent cur)
    (hni : pdIsnaScalar cur = false)
    (hne : ¬ (pyStrip (pyStr cur) = "" ∨ pyLower (pyStr cur) = "nan")) :
    ∃ f, pyFloatOrZero cur = .ok f := by
  cases cur with
  | none => simp [pdIsnaScalar] at hni
  | nan => simp [pdIsnaScalar] at hni
  | int n =>
    unfold pyFloatOrZero
    by_cases ht : pyTruthy (Val.int n) = true
    · rw [if_pos ht]; exact ⟨_, rfl⟩
    · rw [if_neg ht]; exact ⟨_, rfl⟩
  | float f =>
    unfold pyFloatOrZero
    by_cases ht : pyTruthy (Val.float f) = true
    · rw [if_pos ht]; exact ⟨_, rfl⟩
    · rw [if_neg ht]; exact ⟨_, rfl⟩
  | str s =>
    rcases hc with hs | hs | hp
    · exact absurd (Or.inl hs) hne
    · exact absurd (Or.inr hs) hne
    · unfold pyFloatOrZero
      by_cases ht : pyTruthy (Val.str s) = true
      · rw [if_pos ht]
        unfold pyToFloat
        cases hf : pyFloat s with
        | none => simp [hf] at hp
        | some f => simp only [hf]; exact ⟨f, rfl⟩
      · rw [if_neg ht]; exact ⟨_, rfl⟩
  | list xs => cases hc
  | dict kvs => cases hc

/-- The integer coercion succeeds whenever the float coercion does. -/
theorem pyIntOrZero_ok_of_float (v : Val) (h : ∃ f, pyFloatOrZero v = .ok f) :
    ∃ n, pyIntOrZero v = .ok n := by
  obtain ⟨f, hf⟩ := h
  unfold pyIntOrZero
  unfold pyFloatOrZero at hf
  by_cases ht : pyTruthy v = true
  · rw [if_pos ht] at hf ⊢
    rw [hf]
    exact ⟨_, rfl⟩
  · rw [if_neg ht]; exact ⟨_, rfl⟩

/-- C3 counterexample: the value arbitrator is not total — for a rating
column a truthy current value that does not parse as a number makes
`float(current_value)` raise `ValueError`, which nothing in the function
catches (its caller catches it per-record): the claim that unparsable
numerics are treated as zero is contradicted (only falsy operands are
zeroed). -/
theorem c3_arbitrator_raises_on_unparsable :
    choose_better_value "vote_average" (Val.str "abc") (Val.int 5) = .error () := rfl

/-- C3 (amended): restricted to operands its coercions accept —
current values that are scalars and are missing-sentinels or numeric,
api values that are empty/None or numeric — the arbitrator is total and
always returns one of its two operands.  (Truthy unparsable operands
raise; see the counterexample.) -/
theorem c3_arbitrator_total_on_parsable (column : String) (cur api : Val)
    (hc : numSafeCurrent cur) (ha : numSafeApi api) :
    ∃ v, choose_better_value column cur api = .ok v ∧ (v = cur ∨ v = api) := by
  have hbool : pdIsnaBool cur = .ok (pdIsnaScalar cur) := by
    cases cur with
    | list xs => cases hc
    | dict kvs => cases hc
    | none => rfl
    | nan => rfl
    | str s => rfl
    | int n => rfl
    | float f => rfl
  unfold choose_better_value
  rw [hbool]
  show ∃ v, (if pdIsnaScalar cur = true ∨ pyStrip (pyStr cur) = "" ∨ pyLower (pyStr cur) = "nan"
      then Except.ok api else _) = .ok v ∧ _
  by_cases hearly : pdIsnaScalar cur = true ∨ pyStrip (pyStr cur) = "" ∨ pyLower (pyStr cur) = "nan"
  · rw [if_pos hearly]
    exact ⟨api, rfl, Or.inr rfl⟩
  · rw [if_neg hearly]
    push_neg at hearly
    obtain ⟨hni, hne1, hne2⟩ := hearly
    have hni2 : pdIsnaScalar cur = false := by
      cases hpd : pdIsnaScalar cur
      · rfl
      · exact absurd hpd hni
    have hcf := pyFloatOrZero_cur_ok cur hc hni2 (by rw [not_or]; exact ⟨hne1, hne2⟩)
    have haf := pyFloatOrZero_api_ok api ha
    obtain ⟨cf, hcf⟩ := hcf
    obtain ⟨af, haf⟩ := haf
    obtain ⟨ci, hci⟩ := pyIntOrZero_ok_of_float cur ⟨cf, hcf⟩
    obtain ⟨ai, hai⟩ := pyIntOrZero_ok_of_float api ⟨af, haf⟩
    by_cases h1 : (["vote_average", "imdb_rating", "avg_rating"].contains column) = true
    · rw [if_pos h1]
      simp only [hcf, haf]
      split
      · exact ⟨api, rfl, Or.inr rfl⟩
      · split
        · exact ⟨cur, rfl, Or.inl rfl⟩
        · split <;> [exact ⟨api, rfl, Or.inr rfl⟩; exact ⟨cur, rfl, Or.inl rfl⟩]
    · rw [if_neg h1]
      by_cases h2 : (["vote_count", "imdb_votes", "total_ratings"].contains column) = true
      · rw [if_pos h2]
        simp only [hci, hai]
        split <;> [exact ⟨api, rfl, Or.inr rfl⟩; exact ⟨cur, rfl, Or.inl rfl⟩]
      · rw [if_neg h2]
        by_cases h3 : (["budget", "revenue"].contains column) = true
        · rw [if_pos h3]
          simp only [hcf, haf]
          split
          · exact ⟨api, rfl, Or.inr rfl⟩
          · split
            · exact ⟨cur, rfl, Or.inl rfl⟩
            · exact ⟨api, rfl, Or.inr rfl⟩
        · rw [if_neg h3]
          by_cases h4 : column = "runtime"
          · rw [if_pos h4]
            simp only [hci, hai]
            split
            · exact ⟨api, rfl, Or.inr rfl⟩
            · split
              · exact ⟨cur, rfl, Or.inl rfl⟩
              · exact ⟨api, rfl, Or.inr rfl⟩
          · rw [if_neg h4]
            by_cases h5 : (["genres", "cast", "director", "writers", "production_companies",
                "production_countries", "spoken_languages"].contains column) = true
            · rw [if_pos h5]
              cases api <;> cases cur <;>
                (simp only []
                 first
                  | (split <;> [exact ⟨_, rfl, Or.inr rfl⟩; exact ⟨_, rfl, Or.inl rfl⟩])
                  | (exact ⟨_, rfl, Or.inr rfl⟩)
                  | (exact ⟨_, rfl, Or.inl rfl⟩))
            · rw [if_neg h5]
              exact ⟨api, rfl, Or.inr rfl⟩

/-- C3 witness: the amended totality theorem applied at a parsable current
rating and a zero api rating. -/
theorem c3_arbitrator_total_witness :
    numSafeCurrent (Val.str "7.5") ∧ numSafeApi (Val.int 0) ∧
    (∃ v, choose_better_value "vote_average" (Val.str "7.5") (Val.int 0) = .ok v ∧
      (v = Val.str "7.5" ∨ v = Val.int 0)) :=
  ⟨Or.inr (Or.inr rfl), trivial,
    c3_arbitrator_total_on_parsable "vote_average" (Val.str "7.5") (Val.int 0)
      (Or.inr (Or.inr rfl)) trivial⟩

/-! Checkpointing, `ModifiedDataEnrichment.save_checkpoint` /
`load_checkpoint` / `enrich_dataset` (Scripts/data_enrichment_v2.py). -/

/-- The enrichment statistics counters (the wall-clock `start_time` and
`last_checkpoint` entries do not enter any total and are carried
schematically in the serialized dict). -/
structure EStats where
  processed : Int
  enriched : Int
  failed : Int
  total_api_calls : Int
deriving DecidableEq

/-- The stats dict as the constructor initializes it. -/
def init_enrichment_stats : EStats := ⟨0, 0, 0, 0⟩

/-- The `enrichment_stats` dict serialized into a checkpoint: exactly the
keys the constructor creates — in particular `"total_api_calls"`, not
`"api_calls"`. -/
def statsToBag (s : EStats) : List (String × Val) :=
  [("processed", .int s.processed), ("enriched", .int s.enriched),
   ("failed", .int s.failed), ("total_api_calls", .int s.total_api_calls),
   ("start_time", Val.none), ("last_checkpoint", .int 0)]

/-- Counter extraction from a stats dict. -/
def lookupInt (b : List (String × Val)) (k : String) : Int :=
  match bagGet b k with
  | some (.int n) => n
  | _ => 0

/-- Read the four counters back out of a stats dict. -/
def bagToStats (b : List (String × Val)) : EStats :=
  ⟨lookupInt b "processed", lookupInt b "enriched", lookupInt b "failed",
   lookupInt b "total_api_calls"⟩

/-- A checkpoint as `save_checkpoint` writes it: the accumulated output
rows (abstracted to their count — their contents enter no total), the
resume index, and the stats dict. -/
structure Checkpoint where
  enriched_rows : Nat
  current_index : Nat
  stats : List (String × Val)

/-- Model of `ModifiedDataEnrichment.save_checkpoint`. -/
def save_checkpoint (stats : EStats) (rows : Nat) (idx : Nat) : Checkpoint :=
  ⟨rows, idx, statsToBag stats⟩

/-- Model of `ModifiedDataEnrichment.load_checkpoint`.  With no checkpoint
it returns `(None, 0)` and leaves the stats alone.  With a checkpoint, the
`try` block first assigns the stored stats over `self.enrichment_stats`
and then logs `stats["processed"]`, `stats["enriched"]`,
`stats["api_calls"]`: the third subscript raises `KeyError` whenever the
dict came from `save_checkpoint` (which stores `"total_api_calls"`), and
the handler returns `(None, 0)` — with the stats already overwritten. -/
def load_checkpoint (cp : Option Checkpoint) (stats0 : EStats) :
    EStats × Option Nat × Nat :=
  match cp with
  | Option.none => (stats0, Option.none, 0)
  | some c =>
    let restored := bagToStats c.stats
    match bagGet c.stats "processed", bagGet c.stats "enriched",
        bagGet c.stats "api_calls" with
    | some _, some _, some _ => (restored, some c.enriched_rows, c.current_index)
    | _, _, _ => (restored, Option.none, 0)

/-- Per-row statistics update of the `enrich_dataset` loop: `processed` is
incremented unconditionally; the abstract per-row outcome `(api calls,
was_enriched, failed)` drives the other counters (the same dataset gives
the same outcome for the same row index). -/
def enrich_step (outcome : Nat → Int × Bool × Bool) (s : EStats) (i : Nat) : EStats :=
  { processed := s.processed + 1
    enriched := s.enriched + (if (outcome i).2.1 then 1 else 0)
    failed := s.failed + (if (outcome i).2.2 then 1 else 0)
    total_api_calls := s.total_api_calls + (outcome i).1 }

/-- Statistics totals of `enrich_dataset` over an `n`-row dataset: load
the checkpoint into freshly constructed stats, start from row 0 when the
load returned no rows (else from the stored index), and process the rows
from the start index to the end. -/
def enrich_dataset_totals (n : Nat) (outcome : Nat → Int × Bool × Bool)
    (cp : Option Checkpoint) : EStats :=
  let r := load_checkpoint cp init_enrichment_stats
  let start : Nat :=
    match r.2.1 with
    | Option.none => 0
    | some _ => r.2.2
  ((List.range n).drop start).foldl (enrich_step outcome) r.1

/-- Demo outcome for C1: every row costs one API call and is enriched. -/
def c1Outcome : Nat → Int × Bool × Bool := fun _ => (1, true, false)

/-- The stats of a run interrupted right after its checkpoint at row 1000
of 2500. -/
def c1FirstRun : EStats :=
  (List.range 1000).foldl (enrich_step c1Outcome) init_enrichment_stats

/-- The checkpoint that interrupted run leaves behind. -/
def c1Checkpoint : Checkpoint := save_checkpoint c1FirstRun 1000 1000

set_option maxRecDepth 8192 in
/-- C1: checkpoint resume is broken.  `save_checkpoint` stores the
API-call counter under `"total_api_calls"`, but `load_checkpoint` reads
`stats["api_calls"]`, so loading any saved checkpoint hits the `KeyError`
handler and returns `(None, 0)` — after having already restored the saved
stats.  A resumed run therefore restarts at row 0 with non-reset
counters: interrupting after 1000 of 2500 rows and restarting yields
processed = API calls = 3500, not the 2500 of an uninterrupted run. -/
theorem c1_checkpoint_resume_broken :
    (load_checkpoint (some c1Checkpoint) init_enrichment_stats).2 = (Option.none, 0) ∧
    (enrich_dataset_totals 2500 c1Outcome (some c1Checkpoint)).processed = 3500 ∧
    (enrich_dataset_totals 2500 c1Outcome (some c1Checkpoint)).total_api_calls = 3500 ∧
    (enrich_dataset_totals 2500 c1Outcome Option.none).processed = 2500 ∧
    (enrich_dataset_totals 2500 c1Outcome Option.none).total_api_calls = 2500 ∧
    (3500 : Int) ≠ 2500 := by
  have hproc : ∀ (l : List Nat) (s : EStats),
      (l.foldl (enrich_step c1Outcome) s).processed = s.processed + l.length := by
    intro l
    induction l with
    | nil => intro s; simp
    | cons a t ih =>
      intro s
      rw [List.foldl_cons, ih]
      simp only [enrich_step, List.length_cons]
      push_cast
      omega
  have hapi : ∀ (l : List Nat) (s : EStats),
      (l.foldl (enrich_step c1Outcome) s).total_api_calls = s.total_api_calls + l.length := by
    intro l
    induction l with
    | nil => intro s; simp
    | cons a t ih =>
      intro s
      rw [List.foldl_cons, ih]
      simp only [enrich_step, c1Outcome, List.length_cons]
      push_cast
      omega
  have hred : enrich_dataset_totals 2500 c1Outcome (some c1Checkpoint) =
      (List.range 2500).foldl (enrich_step c1Outcome) c1FirstRun := rfl
  have hfresh : enrich_dataset_totals 2500 c1Outcome Option.none =
      (List.range 2500).foldl (enrich_step c1Outcome) init_enrichment_stats := rfl
  have hfp : c1FirstRun.processed = 1000 := by
    rw [c1FirstRun, hproc]
    simp [init_enrichment_stats, List.length_range]
  have hfa : c1FirstRun.total_api_calls = 1000 := by
    rw [c1FirstRun, hapi]
    simp [init_enrichment_stats, List.length_range]
  refine ⟨rfl, ?_, ?_, ?_, ?_, by decide⟩
  · rw [hred, hproc, hfp]
    simp [List.length_range]
  · rw [hred, hapi, hfa]
    simp [List.length_range]
  · rw [hfresh, hproc]
    simp [init_enrichment_stats, List.length_range]
  · rw [hfresh, hapi]
    simp [init_enrichment_stats, List.length_range]

/-! The dataframe validation driver, `DataValidator.validate_dataframe` and
`DataValidator._apply_fallback_correction`. -/

/-- A validation rule as stored in the rules dict: an arbitrary Python
callable that returns a truth value or raises. -/
def Rule : Type := Val → Except Unit Bool

/-- Model of `DataValidator._safe_validate`: exceptions inside a predicate
count as invalid. -/
def safe_validate (r : Rule) (v : Val) : Bool :=
  match r v with
  | .ok b => b
  | .error _ => false

/-- A dataframe: its column labels and its rows (pandas gives every row
every column; an absent key reads as NaN-like missing, modelled `none`). -/
structure Df where
  cols : List String
  rows : List (List (String × Val))

/-- Cell read, `df.at[idx, c]`. -/
def getCell (df : Df) (i : Nat) (c : String) : Val :=
  match df.rows.get? i with
  | some r => rowGet r c
  | Option.none => Val.none

/-- In-place update of one list position. -/
def updateAt {α : Type} : Nat → (α → α) → List α → List α
  | _, _, [] => []
  | 0, f, r :: t => f r :: t
  | n + 1, f, r :: t => r :: updateAt n f t

/-- Cell write, `df.at[idx, c] = v`. -/
def dfSetCell (df : Df) (i : Nat) (c : String) (v : Val) : Df :=
  { df with rows := updateAt i (fun r => rowSet r c v) df.rows }

/-- Python `int(v)` on a string: optional sign and decimal digits only. -/
def pyIntStr (s : String) : Option Int :=
  let cs := stripChars s.data
  let signAndRest : Bool × List Char :=
    match cs with
    | '+' :: t => (false, t)
    | '-' :: t => (true, t)
    | t => (false, t)
  let ds := signAndRest.2
  if ds.isEmpty ∨ ¬ ds.all Char.isDigit then Option.none
  else some (if signAndRest.1 then -(natOfDigits ds : Int) else (natOfDigits ds : Int))

/-- Python `int(v)`: floats truncate toward zero, strings must be integer
literals, everything else (None, NaN, lists) raises. -/
def pyToInt : Val → Except Unit Int
  | .int n => .ok n
  | .float f => .ok (fltTrunc f)
  | .str s =>
    match pyIntStr s with
    | some n => .ok n
    | Option.none => .error ()
  | _ => .error ()

/-- The `_api_enrichable_fields` whitelist. -/
def api_enrichable_fields : List String :=
  ["vote_average", "vote_count", "genres", "production_companies",
   "production_countries", "spoken_languages", "cast", "director", "writers"]

/-- The two frames the validation driver can reach: the caller's
dataframe and the working copy `df_corrected = df.copy()`.  Every write
the source performs goes through `df_corrected.at[...] = ...`; keeping
both frames in the state makes that an explicit, checkable choice. -/
structure VState where
  origDf : Df
  corr : Df

/-- One iteration of the `_apply_fallback_correction` loop for one invalid
row index.  Each failure mode of the source (NaN id, unparsable id, empty
or missing api data, api value failing the validator, arbitration
raising, arbitrated value equal to the current one) skips the row; the
per-index `try/except` absorbs the raising ones. -/
def correction_step (validator : Rule) (fetch : Int → Option (List (String × Val)))
    (column : String) (acc : VState × List Nat) (idx : Nat) : VState × List Nat :=
  let s := acc.1
  let movie_id := getCell s.corr idx "id"
  match pdIsnaBool movie_id with
  | .error _ => acc
  | .ok true => acc
  | .ok false =>
    match pyToInt movie_id with
    | .error _ => acc
    | .ok mid =>
      match fetch mid with
      | Option.none => acc
      | some api_data =>
        if api_data.isEmpty then acc
        else
          match bagGet api_data column with
          | Option.none => acc
          | some api_value =>
            if safe_validate validator api_value then
              match choose_better_value column (getCell s.corr idx column) api_value with
              | .error _ => acc
              | .ok better =>
                if pyEq better (getCell s.corr idx column) then acc
                else ({ s with corr := dfSetCell s.corr idx column better }, acc.2 ++ [idx])
            else acc

/-- Model of `DataValidator._apply_fallback_correction`: at most
`min(10, len(invalid_indices))` rows are attempted. -/
def apply_fallback_correction (validator : Rule)
    (fetch : Int → Option (List (String × Val))) (column : String)
    (invalid_indices : List Nat) (s : VState) : VState × List Nat :=
  (invalid_indices.take (min 10 invalid_indices.length)).foldl
    (correction_step validator fetch column) (s, [])

/-- Number of values of one column passing a rule. -/
def colValidCount (rule : Rule) (rows : List (List (String × Val))) (c : String) : Nat :=
  (rows.map (fun r => safe_validate rule (rowGet r c))).count true

/-- One iteration of the column loop of `validate_dataframe`, carrying
`(state, total_validations, total_valid)`.  A column absent from the
dataframe is skipped; otherwise its valid count (over the original
dataframe) accrues, corrections run when enabled, a fetcher exists, the
column is whitelisted non-`id` and something is invalid, and a non-empty
correction list adds `new_valid - valid` (re-counted over the corrected
frame) to the total. -/
def validate_step (fetch : Option (Int → Option (List (String × Val))))
    (fallback_enabled : Bool) (acc : VState × Int × Int) (cr : String × Rule) :
    VState × Int × Int :=
  let s := acc.1
  let tv := acc.2.1
  let tvalid := acc.2.2
  if cr.1 ∉ s.origDf.cols then acc
  else
    let n := s.origDf.rows.length
    let validCount : Int := (colValidCount cr.2 s.origDf.rows cr.1 : Nat)
    let validMask := s.origDf.rows.map (fun r => safe_validate cr.2 (rowGet r cr.1))
    let invalidIdx := (List.range n).filter (fun i => (validMask.getD i true) = false)
    match fetch with
    | some f =>
      if fallback_enabled ∧ invalidIdx ≠ [] ∧ cr.1 ≠ "id" ∧ cr.1 ∈ api_enrichable_fields then
        let res := apply_fallback_correction cr.2 f cr.1 invalidIdx s
        if res.2 ≠ [] then
          let newValid : Int := (colValidCount cr.2 res.1.corr.rows cr.1 : Nat)
          (res.1, tv + n, tvalid + validCount + (newValid - validCount))
        else (res.1, tv + n, tvalid + validCount)
      else (s, tv + n, tvalid + validCount)
    | Option.none => (s, tv + n, tvalid + validCount)

/-- The validation report fields the claims speak about. -/
structure VRes where
  overall_health_score : Rat
  corrected_dataframe : Df
  input_df : Df

/-- Model of `DataValidator.validate_dataframe`: `df_corrected` starts as
a copy of the input, the column loop folds over the rules, and the health
score is `total_valid / total_validations * 100` (zero when nothing was
validated).  `input_df` is the frame the caller's `df` still denotes when
the function returns. -/
def validate_dataframe (df : Df) (rules : List (String × Rule))
    (fetch : Option (Int → Option (List (String × Val)))) (fallback_enabled : Bool) :
    VRes :=
  let r := rules.foldl (validate_step fetch fallback_enabled) (⟨df, df⟩, 0, 0)
  { overall_health_score :=
      if 0 < r.2.1 then (r.2.2 : Rat) / (r.2.1 : Rat) * 100 else 0
    corrected_dataframe := r.1.corr
    input_df := r.1.origDf }

/-- A point update does not change the list length. -/
theorem updateAt_length {α : Type} (i : Nat) (f : α → α) (l : List α) :
    (updateAt i f l).length = l.length := by
  induction l generalizing i with
  | nil => cases i <;> rfl
  | cons a t ih =>
    cases i with
    | zero => rfl
    | succ n => simpa [updateAt] using ih n

/-- A cell write keeps the row count. -/
theorem dfSetCell_rows_length (df : Df) (i : Nat) (c : String) (v : Val) :
    (dfSetCell df i c v).rows.length = df.rows.length :=
  updateAt_length i _ df.rows

/-- One correction step never touches the caller's frame. -/
theorem correction_step_origDf (validator : Rule)
    (fetch : Int → Option (List (String × Val))) (column : String)
    (acc : VState × List Nat) (idx : Nat) :
    (correction_step validator fetch column acc idx).1.origDf = acc.1.origDf := by
  unfold correction_step
  repeat' (first | (split) | (simp only []))

/-- One correction step keeps the corrected frame's row count. -/
theorem correction_step_corr_length (validator : Rule)
    (fetch : Int → Option (List (String × Val))) (column : String)
    (acc : VState × List Nat) (idx : Nat) :
    (correction_step validator fetch column acc idx).1.corr.rows.length =
      acc.1.corr.rows.length := by
  unfold correction_step
  repeat' (first | (split) | (simp only []))
  all_goals first
    | rfl
    | (exact dfSetCell_rows_length _ _ _ _)

/-- The correction fold never touches the caller's frame. -/
theorem correction_foldl_origDf (validator : Rule)
    (fetch : Int → Option (List (String × Val))) (column : String)
    (l : List Nat) (acc : VState × List Nat) :
    (l.foldl (correction_step validator fetch column) acc).1.origDf = acc.1.origDf := by
  induction l generalizing acc with
  | nil => rfl
  | cons a t ih =>
    rw [List.foldl_cons, ih, correction_step_origDf]

/-- The correction fold keeps the corrected frame's row count. -/
theorem correction_foldl_corr_length (validator : Rule)
    (fetch : Int → Option (List (String × Val))) (column : String)
    (l : List Nat) (acc : VState × List Nat) :
    (l.foldl (correction_step validator fetch column) acc).1.corr.rows.length =
      acc.1.corr.rows.length := by
  induction l generalizing acc with
  | nil => rfl
  | cons a t ih =>
    rw [List.foldl_cons, ih, correction_step_corr_length]

/-- `_apply_fallback_correction` never touches the caller's frame. -/
theorem afc_origDf (validator : Rule) (fetch : Int → Option (List (String × Val)))
    (column : String) (invalid : List Nat) (s : VState) :
    (apply_fallback_correction validator fetch column invalid s).1.origDf = s.origDf :=
  correction_foldl_origDf _ _ _ _ _

/-- `_apply_fallback_correction` keeps the corrected frame's row count. -/
theorem afc_corr_length (validator : Rule) (fetch : Int → Option (List (String × Val)))
    (column : String) (invalid : List Nat) (s : VState) :
    (apply_fallback_correction validator fetch column invalid s).1.corr.rows.length =
      s.corr.rows.length :=
  correction_foldl_corr_length _ _ _ _ _

/-- One column iteration never touches the caller's frame. -/
theorem validate_step_origDf (fetch : Option (Int → Option (List (String × Val))))
    (fb : Bool) (acc : VState × Int × Int) (cr : String × Rule) :
    (validate_step fetch fb acc cr).1.origDf = acc.1.origDf := by
  unfold validate_step
  repeat' (first | (split) | (simp only []))
  all_goals first
    | rfl
    | (exact afc_origDf _ _ _ _ _)

/-- The column fold never touches the caller's frame. -/
theorem validate_foldl_origDf (fetch : Option (Int → Option (List (String × Val))))
    (fb : Bool) (rules : List (String × Rule)) (acc : VState × Int × Int) :
    (rules.foldl (validate_step fetch fb) acc).1.origDf = acc.1.origDf := by
  induction rules generalizing acc with
  | nil => rfl
  | cons a t ih =>
    rw [List.foldl_cons, ih, validate_step_origDf]

/-- C10: `validate_dataframe` never mutates the dataframe the caller
passed in — every correction is written to the internal copy returned as
the corrected dataframe, and the frame the caller's `df` denotes at
return is exactly the one passed in. -/
theorem c10_validate_dataframe_no_mutation (df : Df) (rules : List (String × Rule))
    (fetch : Option (Int → Option (List (String × Val)))) (fb : Bool) :
    (validate_dataframe df rules fetch fb).input_df = df := by
  unfold validate_dataframe
  exact validate_foldl_origDf fetch fb rules (⟨df, df⟩, 0, 0)

/-- A column's valid count never exceeds the row count. -/
theorem colValidCount_le (rule : Rule) (rows : List (List (String × Val))) (c : String) :
    colValidCount rule rows c ≤ rows.length := by
  unfold colValidCount
  calc (rows.map (fun r => safe_validate rule (rowGet r c))).count true
      ≤ (rows.map (fun r => safe_validate rule (rowGet r c))).length := List.count_le_length _ _
    _ = rows.length := List.length_map _ _

/-- Arithmetic core of the health-score bound, correction case: the
column contribution telescopes to the post-correction valid count. -/
theorem c9_arith (tv tvalid vc nv n : Int)
    (h2 : 0 ≤ tvalid) (h3 : tvalid ≤ tv) (hnv0 : 0 ≤ nv) (hnvn : nv ≤ n) :
    0 ≤ tvalid + vc + (nv - vc) ∧ tvalid + vc + (nv - vc) ≤ tv + n := by
  omega

/-- Arithmetic core of the health-score bound, no-correction case. -/
theorem c9_arith2 (tv tvalid vc n : Int)
    (h2 : 0 ≤ tvalid) (h3 : tvalid ≤ tv) (hv0 : 0 ≤ vc) (hvn : vc ≤ n) :
    0 ≤ tvalid + vc ∧ tvalid + vc ≤ tv + n := by
  omega

/-- One column iteration preserves the row-count equality of the two
frames and keeps `0 ≤ total_valid ≤ total_validations`. -/
theorem validate_step_invariant (fetch : Option (Int → Option (List (String × Val))))
    (fb : Bool) (s : VState) (tv tvalid : Int) (cr : String × Rule)
    (h1 : s.corr.rows.length = s.origDf.rows.length)
    (h2 : 0 ≤ tvalid) (h3 : tvalid ≤ tv) :
    (validate_step fetch fb (s, tv, tvalid) cr).1.corr.rows.length =
      (validate_step fetch fb (s, tv, tvalid) cr).1.origDf.rows.length ∧
    0 ≤ (validate_step fetch fb (s, tv, tvalid) cr).2.2 ∧
    (validate_step fetch fb (s, tv, tvalid) cr).2.2 ≤ (validate_step fetch fb (s, tv, tvalid) cr).2.1 := by
  have hvcn : ∀ rows : List (List (String × Val)),
      ((colValidCount cr.2 rows cr.1 : Nat) : Int) ≤ (rows.length : Int) := by
    intro rows
    exact_mod_cast colValidCount_le cr.2 rows cr.1
  unfold validate_step
  simp only []
  split
  · exact ⟨h1, h2, h3⟩
  · split
    · -- fetch = some f
      split
      · -- correction condition holds
        split
        · -- corrections non-empty
          refine ⟨?_, ?_, ?_⟩
          · rw [afc_corr_length, afc_origDf, h1]
          · refine (c9_arith tv tvalid _ _ (s.origDf.rows.length : Int) h2 h3
              (Int.natCast_nonneg _) ?_).1
            refine le_trans (hvcn _) (le_of_eq ?_)
            rw [afc_corr_length, h1]
          · refine (c9_arith _ _ _ _ _ h2 h3 (Int.natCast_nonneg _) ?_).2
            refine le_trans (hvcn _) (le_of_eq ?_)
            rw [afc_corr_length, h1]
        · refine ⟨?_, ?_, ?_⟩
          · rw [afc_corr_length, afc_origDf, h1]
          · exact (c9_arith2 tv tvalid _ (s.origDf.rows.length : Int) h2 h3
            (Int.natCast_nonneg _) (hvcn _)).1
          · exact (c9_arith2 _ _ _ _ h2 h3 (Int.natCast_nonneg _) (hvcn _)).2
      · refine ⟨h1, ?_, ?_⟩
        · exact (c9_arith2 tv tvalid _ (s.origDf.rows.length : Int) h2 h3
            (Int.natCast_nonneg _) (hvcn _)).1
        · exact (c9_arith2 _ _ _ _ h2 h3 (Int.natCast_nonneg _) (hvcn _)).2
    · refine ⟨h1, ?_, ?_⟩
      · exact (c9_arith2 tv tvalid _ (s.origDf.rows.length : Int) h2 h3
            (Int.natCast_nonneg _) (hvcn _)).1
      · exact (c9_arith2 _ _ _ _ h2 h3 (Int.natCast_nonneg _) (hvcn _)).2

/-- The column fold keeps `0 ≤ total_valid ≤ total_validations`. -/
theorem validate_foldl_invariant (fetch : Option (Int → Option (List (String × Val))))
    (fb : Bool) (rules : List (String × Rule)) :
    ∀ (s : VState) (tv tvalid : Int),
      s.corr.rows.length = s.origDf.rows.length → 0 ≤ tvalid → tvalid ≤ tv →
      ((rules.foldl (validate_step fetch fb) (s, tv, tvalid)).1.corr.rows.length =
        (rules.foldl (validate_step fetch fb) (s, tv, tvalid)).1.origDf.rows.length ∧
       0 ≤ (rules.foldl (validate_step fetch fb) (s, tv, tvalid)).2.2 ∧
       (rules.foldl (validate_step fetch fb) (s, tv, tvalid)).2.2 ≤
         (rules.foldl (validate_step fetch fb) (s, tv, tvalid)).2.1) := by
  induction rules with
  | nil => intro s tv tvalid h1 h2 h3; exact ⟨h1, h2, h3⟩
  | cons a t ih =>
    intro s tv tvalid h1 h2 h3
    have hw := validate_step_invariant fetch fb s tv tvalid a h1 h2 h3
    have := ih (validate_step fetch fb (s, tv, tvalid) a).1
      (validate_step fetch fb (s, tv, tvalid) a).2.1
      (validate_step fetch fb (s, tv, tvalid) a).2.2 hw.1 hw.2.1 hw.2.2
    exact this

/-- C9: for every dataframe, rule set, optional correction source and
fallback flag, the overall health score of `validate_dataframe` lies in
`[0, 100]` — including after post-correction improvements are added to
the valid counts (a column's contribution telescopes to its
post-correction valid count, which cannot exceed the row count). -/
theorem c9_health_score_bounds (df : Df) (rules : List (String × Rule))
    (fetch : Option (Int → Option (List (String × Val)))) (fb : Bool) :
    0 ≤ (validate_dataframe df rules fetch fb).overall_health_score ∧
    (validate_dataframe df rules fetch fb).overall_health_score ≤ 100 := by
  unfold validate_dataframe
  simp only []
  obtain ⟨-, h2, h3⟩ :=
    validate_foldl_invariant fetch fb rules ⟨df, df⟩ 0 0 rfl le_rfl le_rfl
  split
  · rename_i hpos
    constructor
    · apply mul_nonneg
      · apply div_nonneg
        · exact_mod_cast h2
        · exact_mod_cast le_of_lt hpos
      · norm_num
    · have h1R : ((rules.foldl (validate_step fetch fb) (⟨⟨df, df⟩, 0, 0⟩ : VState × Int × Int)).2.2 : Rat) ≤
          ((rules.foldl (validate_step fetch fb) (⟨⟨df, df⟩, 0, 0⟩ : VState × Int × Int)).2.1 : Rat) := by
        exact_mod_cast h3
      have hposR : (0 : Rat) <
          ((rules.foldl (validate_step fetch fb) (⟨⟨df, df⟩, 0, 0⟩ : VState × Int × Int)).2.1 : Rat) := by
        exact_mod_cast hpos
      calc _ ≤ 1 * 100 := mul_le_mul_of_nonneg_right ((div_le_one hposR).mpr h1R) (by norm_num)
        _ = (100 : Rat) := by norm_num
  · norm_num
